import Mathlib

/-!
# Verification of the contract-comparison clause engine

Shallow embedding of the clause extraction, classification, matching and
status-resolution engine of the contract-comparison tool
(`src/lib/pdf-parser.ts`, `src/lib/ai-service.ts`, `src/lib/ai-mistral.ts`,
the OpenAI analysis module, and the upload route's key-clause reporting).

Strings are modelled as lists of characters (`Str`).  Texts handed to the
TF-IDF machinery are tokenized by one rule (lower-casing followed by
splitting on non-word characters and discarding empty fragments), standing
for both JavaScript's `split(/\W+/)` term extraction and the `natural`
library's word tokenizer; a document added to a `TfIdf` instance as a
string additionally has English stopwords removed (`buildDocument`), as
the library's `buildDocument` does, while the iterated term sets and the
query terms keep all tokens.  External
collaborators (the PDF byte-level extractor, the generative-AI analysis
backends and the JSON parser applied to their replies) are parameters of
the definitions that invoke them.
-/

/-- Strings are modelled as lists of characters. -/
abbrev Str := List Char

/-- Conversion from Lean string literals to the character-list model. -/
def str (s : String) : Str := s.data

/-- ASCII lower-case letter, the character class `[a-z]`. -/
def isAsciiLower (c : Char) : Bool := 'a' ≤ c && c ≤ 'z'

/-- ASCII upper-case letter, the character class `[A-Z]`. -/
def isAsciiUpper (c : Char) : Bool := 'A' ≤ c && c ≤ 'Z'

/-- Word character, the regex class `\w` = `[A-Za-z0-9_]`. -/
def isWordChar (c : Char) : Bool :=
  isAsciiLower c || isAsciiUpper c || c.isDigit || c = '_'

/-- Whitespace, modelling the regex class `\s` (space, tab, CR, LF). -/
def isSpace (c : Char) : Bool := c.isWhitespace

/-- `String.prototype.toLowerCase`, character by character. -/
def toLowerStr (s : Str) : Str := s.map Char.toLower

/-- Does `l` start with `p`?  Models `String.prototype.startsWith`. -/
def startsWithStr : Str → Str → Bool
  | _, [] => true
  | [], _ :: _ => false
  | c :: cs, p :: ps => c == p && startsWithStr cs ps

/-- Does `hay` contain `needle` as a contiguous substring?  Models
`String.prototype.includes`. -/
def includesStr : Str → Str → Bool
  | [], needle => startsWithStr [] needle
  | c :: cs, needle => startsWithStr (c :: cs) needle || includesStr cs needle

/-- Does `hay` contain any of the listed substrings?  Models a regex
alternation of string literals tested with `match`/`includes`. -/
def includesAny (hay : Str) (needles : List Str) : Bool :=
  needles.any fun n => includesStr hay n

/-- `String.prototype.trim`: strip leading and trailing whitespace. -/
def trimStr (s : Str) : Str :=
  ((s.dropWhile isSpace).reverse.dropWhile isSpace).reverse

/-- Split on `'\n'`, keeping empty fragments:
`String.prototype.split('\n')`. -/
def splitLines : Str → List Str
  | [] => [[]]
  | c :: cs =>
    if c = '\n' then [] :: splitLines cs
    else
      match splitLines cs with
      | [] => [[c]]
      | h :: t => (c :: h) :: t

/-- Maximal word-character runs of a string (helper for `tokenize`);
models `split(/\W+/)` before empty fragments are discarded. -/
def wordRuns : Str → Str → List Str
  | [], acc => [acc.reverse]
  | c :: cs, acc =>
    if isWordChar c then wordRuns cs (c :: acc)
    else acc.reverse :: wordRuns cs []

/-- Lower-case word tokens of a text block: JavaScript's `split(/\W+/)`
term extraction, and the tokenization stage of `natural`'s document
construction (empty fragments carry zero term frequency and are
dropped). -/
def tokenize (s : Str) : List Str :=
  (wordRuns (toLowerStr s) []).filter (fun w => w ≠ [])

/-- First-occurrence deduplication (helper): keep the elements not yet
seen, remembering the ones already emitted. -/
def dedupFirstAux (seen : List Str) : List Str → List Str
  | [] => []
  | x :: xs =>
    if x ∈ seen then dedupFirstAux seen xs
    else x :: dedupFirstAux (x :: seen) xs

/-- First-occurrence deduplication, the order produced by a JavaScript
`Set` built from a spread, and by `Record` key insertion. -/
def dedupFirst (l : List Str) : List Str := dedupFirstAux [] l

/-- Alignment status of a comparison result (`pdf-parser.ts`). -/
inductive Status where
  | Aligned
  | Partial
  | NonCompliant
  | Missing
deriving DecidableEq, Repr

/-- Risk level of a comparison result (`pdf-parser.ts`). -/
inductive Risk where
  | low
  | medium
  | high
deriving DecidableEq, Repr

/-- The `Clause` record of `pdf-parser.ts`: a parsed section with its
obligations and optional classification. -/
structure Clause where
  sectionNumber : Str
  sectionTitle : Str
  content : Str
  obligations : List Str
  type : Option Str
  risk : Option Risk
deriving DecidableEq

instance : Inhabited Clause := ⟨⟨[], [], [], [], none, none⟩⟩

/-- The `ComparisonResult` record of `pdf-parser.ts`. -/
structure ComparisonResult where
  clauseTitle : Str
  clientClause : Str
  vendorClause : Str
  status : Status
  suggestedFix : Option Str
  risk : Risk
  analysis : Option Str
  similarityScore : Option ℝ
  clauseType : Str
  summary : Option Str
  recommendation : Option Str

/-- `classifyClauseType` of `pdf-parser.ts`: first keyword table hit wins,
falling back to "General Terms". -/
def classifyClauseType (text : Str) : Str :=
  let t := toLowerStr text
  if includesAny t [str "payment", str "price", str "fee", str "cost",
      str "invoice", str "currency"] then str "Payment Terms"
  else if includesAny t [str "delivery", str "ship", str "transport",
      str "handover", str "deliverable"] then str "Delivery Terms"
  else if includesAny t [str "risk", str "liability", str "indemnification",
      str "warranty", str "damage"] then str "Risk and Liability"
  else if includesAny t [str "acceptance", str "approval", str "inspection",
      str "review", str "verify"] then str "Acceptance"
  else if includesAny t [str "termination", str "terminate", str "end",
      str "expire", str "cancel"] then str "Termination"
  else if includesAny t [str "confidential", str "non-disclosure", str "nda",
      str "privacy", str "secret"] then str "Confidentiality"
  else if includesAny t [str "intellectual property", str "ip",
      str "copyright", str "patent", str "trademark"] then
    str "Intellectual Property"
  else if includesAny t [str "service level", str "sla", str "performance",
      str "uptime", str "availability"] then str "Service Level"
  else if includesAny t [str "data protection", str "gdpr",
      str "personal data", str "data privacy", str "data security"] then
    str "Data Protection"
  else if includesAny t [str "force majeure", str "act of god",
      str "unforeseen", str "beyond control"] then str "Force Majeure"
  else if includesAny t [str "governing law", str "jurisdiction", str "venue",
      str "dispute resolution", str "arbitration"] then str "Governing Law"
  else str "General Terms"

/-- Roman-numeral character `[ivx]` up to case. -/
def isRomanChar (c : Char) : Bool :=
  c.toLower = 'i' || c.toLower = 'v' || c.toLower = 'x'

/-- Is the head of the string an ASCII capital?  Models `/^[A-Z]/.test`. -/
def headUpper : Str → Bool
  | c :: _ => isAsciiUpper c
  | [] => false

/-- `match` against `/^\d+\./`, returning the matched text. -/
def matchNumDot (l : Str) : Option Str :=
  let ds := l.takeWhile Char.isDigit
  if ds = [] then none
  else
    match l.drop ds.length with
    | '.' :: _ => some (ds ++ str ".")
    | _ => none

/-- `match` against `/^\d+\.\d+/`, returning the matched text. -/
def matchNumDotNum (l : Str) : Option Str :=
  let ds := l.takeWhile Char.isDigit
  if ds = [] then none
  else
    match l.drop ds.length with
    | '.' :: rest =>
      let ds2 := rest.takeWhile Char.isDigit
      if ds2 = [] then none else some (ds ++ '.' :: ds2)
    | _ => none

/-- `match` against `/^\d+\.\d+\.\d+/`, returning the matched text. -/
def matchNumDotNumDotNum (l : Str) : Option Str :=
  let ds := l.takeWhile Char.isDigit
  if ds = [] then none
  else
    match l.drop ds.length with
    | '.' :: rest =>
      let ds2 := rest.takeWhile Char.isDigit
      if ds2 = [] then none
      else
        match rest.drop ds2.length with
        | '.' :: rest2 =>
          let ds3 := rest2.takeWhile Char.isDigit
          if ds3 = [] then none
          else some (ds ++ '.' :: ds2 ++ '.' :: ds3)
        | _ => none
    | _ => none

/-- `match` against `/^[A-Z]\./`, returning the matched text. -/
def matchCapDot (l : Str) : Option Str :=
  match l with
  | c :: '.' :: _ => if isAsciiUpper c then some [c, '.'] else none
  | _ => none

/-- `match` against `/^[A-Z]\.\d+/`, returning the matched text. -/
def matchCapDotNum (l : Str) : Option Str :=
  match l with
  | c :: '.' :: rest =>
    if isAsciiUpper c then
      let ds := rest.takeWhile Char.isDigit
      if ds = [] then none else some (c :: '.' :: ds)
    else none
  | _ => none

/-- `match` against `/^\([a-z]\)/`, returning the matched text. -/
def matchParenLetter (l : Str) : Option Str :=
  match l with
  | '(' :: c :: ')' :: _ => if isAsciiLower c then some ['(', c, ')'] else none
  | _ => none

/-- `match` against `/^\([ivx]+\)/i`, returning the matched text. -/
def matchParenRoman (l : Str) : Option Str :=
  match l with
  | '(' :: rest =>
    let rs := rest.takeWhile isRomanChar
    if rs = [] then none
    else
      match rest.drop rs.length with
      | ')' :: _ => some ('(' :: rs ++ str ")")
      | _ => none
  | _ => none

/-- `match` against `/^[IVX]+\./i`, returning the matched text. -/
def matchRomanDot (l : Str) : Option Str :=
  let rs := l.takeWhile isRomanChar
  if rs = [] then none
  else
    match l.drop rs.length with
    | '.' :: _ => some (rs ++ str ".")
    | _ => none

/-- The priority-ordered heading detection of `splitIntoSections`: the
`sectionPatterns` array is scanned in order and the first match wins. -/
def firstSectionMatch (l : Str) : Option Str :=
  match matchNumDot l with
  | some m => some m
  | none =>
    match matchNumDotNum l with
    | some m => some m
    | none =>
      match matchNumDotNumDotNum l with
      | some m => some m
      | none =>
        match matchCapDot l with
        | some m => some m
        | none =>
          match matchCapDotNum l with
          | some m => some m
          | none =>
            match matchParenLetter l with
            | some m => some m
            | none =>
              match matchParenRoman l with
              | some m => some m
              | none => matchRomanDot l

/-- Greedy continuation `(?:\s+[A-Z][a-z]+)*` of the Title Case pattern,
returning the matched extension. -/
def titleCaseCont (l : Str) : Str :=
  if hws : l.takeWhile isSpace = [] then []
  else
    match hm : l.drop (l.takeWhile isSpace).length with
    | [] => []
    | c :: cs =>
      if isAsciiUpper c then
        if hlo : cs.takeWhile isAsciiLower = [] then []
        else
          l.takeWhile isSpace ++ c ::
            (cs.takeWhile isAsciiLower ++ titleCaseCont (cs.drop (cs.takeWhile isAsciiLower).length))
      else []
termination_by l.length
decreasing_by
  have h1 := congrArg List.length hm
  simp only [List.length_drop, List.length_cons] at h1
  have h2 : 0 < (l.takeWhile isSpace).length := List.length_pos.mpr hws
  have h3 : (cs.drop (cs.takeWhile isAsciiLower).length).length ≤ cs.length := by
    simp only [List.length_drop]; omega
  omega

/-- Greedy continuation `(?:\s+[A-Z]+)*` of the ALL CAPS pattern. -/
def allCapsCont (l : Str) : Str :=
  if hws : l.takeWhile isSpace = [] then []
  else
    match hm : l.drop (l.takeWhile isSpace).length with
    | [] => []
    | c :: cs =>
      if isAsciiUpper c then
        l.takeWhile isSpace ++ c ::
          (cs.takeWhile isAsciiUpper ++ allCapsCont (cs.drop (cs.takeWhile isAsciiUpper).length))
      else []
termination_by l.length
decreasing_by
  have h1 := congrArg List.length hm
  simp only [List.length_drop, List.length_cons] at h1
  have h2 : 0 < (l.takeWhile isSpace).length := List.length_pos.mpr hws
  have h3 : (cs.drop (cs.takeWhile isAsciiUpper).length).length ≤ cs.length := by
    simp only [List.length_drop]; omega
  omega

/-- Greedy continuation `(?:\s+[a-z]+)*` of the Sentence case pattern. -/
def sentenceCont (l : Str) : Str :=
  if hws : l.takeWhile isSpace = [] then []
  else
    match hm : l.drop (l.takeWhile isSpace).length with
    | [] => []
    | c :: cs =>
      if isAsciiLower c then
        l.takeWhile isSpace ++ c ::
          (cs.takeWhile isAsciiLower ++ sentenceCont (cs.drop (cs.takeWhile isAsciiLower).length))
      else []
termination_by l.length
decreasing_by
  have h1 := congrArg List.length hm
  simp only [List.length_drop, List.length_cons] at h1
  have h2 : 0 < (l.takeWhile isSpace).length := List.length_pos.mpr hws
  have h3 : (cs.drop (cs.takeWhile isAsciiLower).length).length ≤ cs.length := by
    simp only [List.length_drop]; omega
  omega

/-- `match` against the Title Case pattern
`/^[A-Z][a-z]+(?:\s+[A-Z][a-z]+)*/`, returning the matched text. -/
def matchTitleCase (t : Str) : Option Str :=
  match t with
  | c :: cs =>
    if isAsciiUpper c then
      let lows := cs.takeWhile isAsciiLower
      if lows = [] then none
      else some (c :: lows ++ titleCaseCont (cs.drop lows.length))
    else none
  | [] => none

/-- `match` against the ALL CAPS pattern `/^[A-Z]+(?:\s+[A-Z]+)*/`. -/
def matchAllCaps (t : Str) : Option Str :=
  match t with
  | c :: cs =>
    if isAsciiUpper c then
      let ups := cs.takeWhile isAsciiUpper
      some (c :: ups ++ allCapsCont (cs.drop ups.length))
    else none
  | [] => none

/-- `match` against the Sentence case pattern
`/^[A-Z][a-z]+(?:\s+[a-z]+)*/`. -/
def matchSentenceCase (t : Str) : Option Str :=
  match t with
  | c :: cs =>
    if isAsciiUpper c then
      let lows := cs.takeWhile isAsciiLower
      if lows = [] then none
      else some (c :: lows ++ sentenceCont (cs.drop lows.length))
    else none
  | [] => none

/-- The character class `[\d\.\s\(\)IVX]` (with the `i` flag) stripped from
the front of a heading line by `extractSectionTitle`. -/
def leadingMarkerChar (c : Char) : Bool :=
  c.isDigit || c = '.' || isSpace c || c = '(' || c = ')' || isRomanChar c

/-- `extractSectionTitle` of `pdf-parser.ts`. -/
def extractSectionTitle (text : Str) : Str :=
  let afterNumber := trimStr (text.dropWhile leadingMarkerChar)
  let fromAfter : Option Str :=
    if afterNumber ≠ [] then
      (splitLines afterNumber).findSome? fun line =>
        let t := trimStr line
        if t ≠ [] ∧ t.length < 100 ∧ headUpper t = true then some t else none
    else none
  match fromAfter with
  | some t => t
  | none =>
    let ls := splitLines text
    match ls.findSome? (fun line =>
        let t := trimStr line
        if t ≠ [] then
          match matchTitleCase t with
          | some m => some m
          | none =>
            match matchAllCaps t with
            | some m => some m
            | none => matchSentenceCase t
        else none) with
    | some m => m
    | none =>
      match ls.findSome? (fun line =>
          let t := trimStr line
          if t ≠ [] then some t else none) with
      | some t => t
      | none => str "Untitled Section"

/-- A parsed document section (`splitIntoSections` element). -/
structure Section' where
  number : Str
  title : Str
  content : Str
deriving DecidableEq

/-- The line-scanning accumulator of `splitIntoSections`: the current
section (if any) is flushed on each heading line and at end of input. -/
def sectionsLoop : List Str → Option Section' → List Section'
  | [], cur => match cur with | some c => [c] | none => []
  | line :: rest, cur =>
    match firstSectionMatch line with
    | some m =>
      (match cur with | some c => [c] | none => []) ++
        sectionsLoop rest (some ⟨m, extractSectionTitle line, line⟩)
    | none =>
      match cur with
      | some c => sectionsLoop rest (some ⟨c.number, c.title, c.content ++ '\n' :: line⟩)
      | none => sectionsLoop rest none

/-- `splitIntoSections` of `pdf-parser.ts`. -/
def splitIntoSections (text : Str) : List Section' :=
  sectionsLoop (splitLines text) none

/-- Lookahead test for the next character (a regex `(?=...)` group of a
single character class). -/
def lookNext (p : Char → Bool) : Str → Bool
  | c :: _ => p c
  | [] => false

/-- Lookahead `(?=\d+\.)`. -/
def lookNumberDot (l : Str) : Bool :=
  let ds := l.takeWhile Char.isDigit
  ds ≠ [] &&
    match l.drop ds.length with
    | '.' :: _ => true
    | _ => false

/-- Lookahead `(?=\([a-z]\))`. -/
def lookParenLower : Str → Bool
  | '(' :: c :: ')' :: _ => isAsciiLower c
  | _ => false

/-- Delimiter detector for `sep` followed by `\s+` and a lookahead: at the
head of a fragment, returns the number of whitespace characters consumed
after `sep`. -/
def delimSep (sep : Char) (look : Str → Bool) (c : Char) (cs : Str) : Option Nat :=
  if c = sep then
    let ws := cs.takeWhile isSpace
    if ws ≠ [] ∧ look (cs.drop ws.length) = true then some ws.length else none
  else none

/-- Bullet marker characters `[•\-\*]`. -/
def isBullet (c : Char) : Bool := c = '•' || c = '-' || c = '*'

/-- Delimiter detector for `/[•\-\*]\s/`: a bullet marker followed by one
whitespace character. -/
def delimBullet (c : Char) (cs : Str) : Option Nat :=
  if isBullet c && lookNext isSpace cs then some 1 else none

/-- `String.prototype.split` driven by a delimiter detector `d`; the
detector reports how many characters beyond the head it consumes. -/
def splitAux (d : Char → Str → Option Nat) : Str → Str → List Str
  | [], acc => [acc.reverse]
  | c :: cs, acc =>
    match d c cs with
    | some n => acc.reverse :: splitAux d (cs.drop n) []
    | none => splitAux d cs (c :: acc)
termination_by l _ => l.length
decreasing_by
  · simp only [List.length_drop, List.length_cons]; omega
  · simp only [List.length_cons]; omega

/-- One delimiter pass of `splitIntoObligations`: split, trim each
fragment, drop empty fragments. -/
def splitPass (d : Char → Str → Option Nat) (s : Str) : List Str :=
  ((splitAux d s []).map trimStr).filter (fun f => f ≠ [])

/-- Does a fragment start with a bullet marker (`/^[•\-\*]\s/`)? -/
def bulletStart : Str → Bool
  | c :: rest => isBullet c && lookNext isSpace rest
  | [] => false

/-- `splitIntoObligations` of `pdf-parser.ts`: the fixed chain of
delimiter passes followed by the bullet pass. -/
def splitIntoObligations (text : Str) : List Str :=
  let obl1 := [text].flatMap fun o => splitPass (delimSep '.' (lookNext isAsciiUpper)) o
  let obl2 := obl1.flatMap fun o => splitPass (delimSep ';' (lookNext isAsciiUpper)) o
  let obl3 := obl2.flatMap fun o => splitPass (delimSep ':' (lookNext isAsciiUpper)) o
  let obl4 := obl3.flatMap fun o => splitPass (delimSep '.' lookNumberDot) o
  let obl5 := obl4.flatMap fun o => splitPass (delimSep '.' lookParenLower) o
  obl5.flatMap fun o =>
    if bulletStart o then splitPass delimBullet o else [o]

/-- `extractTextFromPDF` of `pdf-parser.ts`, with the byte-level
`pdf-parse` collaborator out of scope: its text output is the argument,
and the guard rejects empty or whitespace-only text. -/
def extractTextFromPDF (text : Str) : Except Str Str :=
  if (trimStr text).length = 0 then
    .error (str "No readable text found in the PDF. Please ensure the PDF contains selectable text.")
  else .ok text

/-- The section-to-clause conversion inside `parsePDF`. -/
def sectionToClause (s : Section') : Clause :=
  { sectionNumber := s.number, sectionTitle := s.title, content := s.content,
    obligations := splitIntoObligations s.content,
    type := some (classifyClauseType s.content), risk := none }

/-- `parsePDF` of `pdf-parser.ts` (downstream of text extraction). -/
def parsePDF (text : Str) : Except Str (List Clause) :=
  match extractTextFromPDF text with
  | .error e => .error e
  | .ok t =>
    let clauses := (splitIntoSections t).map sectionToClause
    if clauses.length = 0 then
      .error (str "No sections found in the PDF. Please ensure the PDF contains numbered sections.")
    else .ok clauses

/-! ## TF-IDF similarity (`natural`'s TfIdf as used by the scorer and matcher) -/

/-- A TF-IDF document: the token list of a text block. -/
abbrev Doc := List Str

/-- The English stopword list of `natural` (`lib/natural/util/stopwords.js`),
removed from every document added to a `TfIdf` instance as a string. -/
def stopwords : List Str :=
  [str "about", str "above", str "after", str "again", str "all", str "also",
   str "am", str "an", str "and", str "another", str "any", str "are",
   str "as", str "at", str "be", str "because", str "been", str "before",
   str "being", str "below", str "between", str "both", str "but", str "by",
   str "came", str "can", str "cannot", str "come", str "could", str "did",
   str "do", str "does", str "doing", str "during", str "each", str "few",
   str "for", str "from", str "further", str "get", str "got", str "has",
   str "had", str "he", str "have", str "her", str "here", str "him",
   str "himself", str "his", str "how", str "if", str "in", str "into",
   str "is", str "it", str "its", str "itself", str "like", str "make",
   str "many", str "me", str "might", str "more", str "most", str "much",
   str "must", str "my", str "myself", str "never", str "now", str "of",
   str "on", str "only", str "or", str "other", str "our", str "ours",
   str "ourselves", str "out", str "over", str "own", str "said", str "same",
   str "see", str "should", str "since", str "so", str "some", str "still",
   str "such", str "take", str "than", str "that", str "the", str "their",
   str "theirs", str "them", str "themselves", str "then", str "there",
   str "these", str "they", str "this", str "those", str "through", str "to",
   str "too", str "under", str "until", str "up", str "very", str "was",
   str "way", str "we", str "well", str "were", str "what", str "where",
   str "when", str "which", str "while", str "who", str "whom", str "with",
   str "would", str "why", str "you", str "your", str "yours",
   str "yourself", str "0", str "1", str "2", str "3", str "4", str "5",
   str "6", str "7", str "8", str "9", str "_"]

/-- `natural`'s `buildDocument` on a string document: lower-cased word
tokens with English stopwords removed (the stopword filter applies
exactly to string documents, which is how both call sites add theirs). -/
def buildDocument (s : Str) : Doc :=
  (tokenize s).filter (fun w => w ∉ stopwords)

/-- Number of corpus documents containing a term. -/
def docsWithTerm (term : Str) (docs : List Doc) : Nat :=
  (docs.filter fun d => term ∈ d).length

/-- `natural`'s inverse document frequency over the current corpus:
`1 + ln(numDocs / (1 + docsWithTerm))`.  (The library's guard replacing an
infinite idf by `0` is unreachable for the finite corpora built here.) -/
noncomputable def idf (term : Str) (docs : List Doc) : ℝ :=
  1 + Real.log ((docs.length : ℝ) / (1 + (docsWithTerm term docs : ℝ)))

/-- `tfidf.tfidfs(term)[i]`: raw term frequency in document `i` times the
corpus idf. -/
noncomputable def tfidfAt (docs : List Doc) (term : Str) (i : Nat) : ℝ :=
  (((docs.getD i []).count term : ℕ) : ℝ) * idf term docs

/-- One term of the accumulation loop shared by
`calculateSemanticSimilarity` and `findBestMatchWithEmbeddings`: a term
whose scores in documents 0 and 1 are both positive adds `min` to the
numerator and `max` to the denominator. -/
noncomputable def partStep (docs : List Doc) (acc : ℝ × ℝ) (term : Str) : ℝ × ℝ :=
  if 0 < tfidfAt docs term 0 ∧ 0 < tfidfAt docs term 1 then
    (acc.1 + min (tfidfAt docs term 0) (tfidfAt docs term 1),
     acc.2 + max (tfidfAt docs term 0) (tfidfAt docs term 1))
  else acc

/-- The numerator/denominator accumulation over the iterated term set. -/
noncomputable def similarityParts (docs : List Doc) (terms : List Str) : ℝ × ℝ :=
  terms.foldl (partStep docs) (0, 0)

/-- The iterated term set `new Set([...terms1, ...terms2])` of two texts. -/
def termUnion (d1 d2 : Doc) : List Str := dedupFirst (d1.dedup ++ d2.dedup)

/-- `calculateSemanticSimilarity` of `ai-service.ts`: a fresh two-document
corpus per call (documents stopword-filtered by the library, term sets
taken from the raw token sets), normalized overlap `num/den` (or 0 when
`den = 0`). -/
noncomputable def calculateSemanticSimilarity (text1 text2 : Str) : ℝ :=
  let docs : List Doc := [buildDocument text1, buildDocument text2]
  let nd := similarityParts docs (termUnion (tokenize text1) (tokenize text2))
  if 0 < nd.2 then nd.1 / nd.2 else 0

/-- One iteration of `findBestMatchWithEmbeddings`'s vendor loop: the
vendor document is appended to the (persistent) corpus, and the scores of
documents 0 and 1 of that grown corpus are accumulated over the term union
of the client text and the current vendor text. -/
noncomputable def bestStep (clientTerms : Doc) (st : List Doc × (Clause × ℝ)) (v : Clause) :
    List Doc × (Clause × ℝ) :=
  let docs := st.1 ++ [buildDocument v.content]
  let nd := similarityParts docs (termUnion clientTerms (tokenize v.content))
  let sim := if 0 < nd.2 then nd.1 / nd.2 else 0
  (docs, if st.2.2 < sim then (v, sim) else st.2)

/-- `findBestMatchWithEmbeddings` of `pdf-parser.ts`: starts from vendor
clause 0 with similarity 0 and keeps a strictly better candidate. -/
noncomputable def findBestMatchWithEmbeddings (clientClause : Clause)
    (vendorClauses : List Clause) : Clause × ℝ :=
  (vendorClauses.foldl (bestStep (tokenize clientClause.content))
    ([buildDocument clientClause.content], (vendorClauses.headI, 0))).2

/-! ## Status and risk resolution -/

/-- The summary/recommendation pair produced by the per-pair analysis
collaborator (`analyzeClauseDifferences`'s result shape). -/
structure SummaryRec where
  summary : Str
  recommendation : Str
deriving DecidableEq

/-- `determineStatusAndRisk` of `pdf-parser.ts`. -/
noncomputable def determineStatusAndRisk (similarity : ℝ) (analysis : SummaryRec) :
    Status × Risk :=
  let status : Status :=
    if 0.85 ≤ similarity then .Aligned
    else if 0.65 ≤ similarity then .Partial
    else .NonCompliant
  let risk : Risk :=
    if status = .NonCompliant then .high
    else if status = .Partial then
      if includesAny (toLowerStr analysis.summary)
          [str "critical", str "significant", str "major", str "severe"] then .high
      else if includesAny (toLowerStr analysis.summary)
          [str "risk", str "concern", str "issue"] then .medium
      else .low
    else .low
  (status, risk)

/-! ## The comparison orchestrator `compareClauses` -/

/-- `clause.type || classifyClauseType(clause.content)`: the effective
type given to every clause before grouping (JavaScript `||` treats the
empty string like an absent type). -/
def effTypeRaw (c : Clause) : Str :=
  match c.type with
  | some t => if t = [] then classifyClauseType c.content else t
  | none => classifyClauseType c.content

/-- The typing pass at the top of `compareClauses`. -/
def typedOf (c : Clause) : Clause := { c with type := some (effTypeRaw c) }

/-- `clause.type || 'General Terms'`: the grouping key of
`groupClausesByType`. -/
def groupKeyOf (c : Clause) : Str :=
  match c.type with
  | some t => if t = [] then str "General Terms" else t
  | none => str "General Terms"

/-- The keys of `groupClausesByType`'s record, in insertion order. -/
def clauseTypesOrdered (cs : List Clause) : List Str :=
  dedupFirst (cs.map groupKeyOf)

/-- `clausesByType[t] || []`: the group of clauses of type `t`, in
original document order. -/
def clausesOfType (cs : List Clause) (t : Str) : List Clause :=
  cs.filter fun c => groupKeyOf c == t

/-- The result pushed for a client clause whose type has no vendor
counterpart (the Missing branch of `compareClauses`). -/
def missingResult (t : Str) (c : Clause) : ComparisonResult :=
  { clauseTitle := c.sectionTitle, clientClause := c.content, vendorClause := [],
    status := .Missing, clauseType := t, risk := .high,
    suggestedFix :=
      some (str "Add " ++ t ++ str " clause for \"" ++ c.sectionTitle ++ str "\""),
    summary := some (str "Missing " ++ t ++
      str " clause in vendor contract. This represents a significant risk as the vendor contract does not address "
      ++ toLowerStr t ++ str " requirements."),
    recommendation := some (str "Request vendor to add a " ++ t ++
      str " clause that aligns with client requirements. Consider this a critical negotiation point."),
    analysis := none, similarityScore := none }

/-- The result pushed for a matched client/vendor pair. -/
def matchedResult (t : Str) (c : Clause) (best : Clause × ℝ)
    (analysis : SummaryRec) (sr : Status × Risk) : ComparisonResult :=
  { clauseTitle := c.sectionTitle, clientClause := c.content,
    vendorClause := best.1.content,
    status := sr.1, clauseType := t, similarityScore := some best.2, risk := sr.2,
    summary := some analysis.summary, recommendation := some analysis.recommendation,
    analysis := none,
    suggestedFix :=
      if sr.1 = .Aligned then none
      else some (str "Review and align " ++ t ++ str " clause \"" ++ c.sectionTitle
        ++ str "\" with client requirements") }

/-- `compareClauses` of `pdf-parser.ts`, parametrized by the external
per-pair analysis collaborator (`analyzeClauseDifferences`).  Clauses are
typed, grouped by type, and for each type in key order every client
clause of that type yields exactly one result - the Missing result if the
vendor group is empty, the best-match result otherwise. -/
noncomputable def compareClauses (analyze : Clause → Clause → Str → SummaryRec)
    (clientClauses vendorClauses : List Clause) : List ComparisonResult :=
  let tc := clientClauses.map typedOf
  let tv := vendorClauses.map typedOf
  let allTypes := dedupFirst (clauseTypesOrdered tc ++ clauseTypesOrdered tv)
  allTypes.flatMap fun t =>
    let vtc := clausesOfType tv t
    (clausesOfType tc t).map fun c =>
      if vtc.length = 0 then missingResult t c
      else
        let best := findBestMatchWithEmbeddings c vtc
        let analysis := analyze c best.1 t
        matchedResult t c best analysis (determineStatusAndRisk best.2 analysis)

/-! ## The upload route's key-clause reporting (`KEY_CLAUSE_TYPES` path) -/

/-- The fixed reporting taxonomy of the upload endpoint. -/
def KEY_CLAUSE_TYPES : List Str :=
  [str "Termination", str "Delivery Terms", str "Payment Terms",
   str "Confidentiality and IP", str "Limitation of Liability"]

/-- `normalizeClauseType` of the upload route: regex alternations of
string literals over the lower-cased `type + ' ' + content`. -/
def normalizeClauseType (type content : Str) : Str :=
  let t := toLowerStr (type ++ str " " ++ content)
  if includesAny t [str "termination", str "terminate", str "end of agreement",
      str "end of contract", str "expiry", str "expiration"] then str "Termination"
  else if includesAny t [str "delivery", str "deliverable", str "ship",
      str "transport", str "handover"] then str "Delivery Terms"
  else if includesAny t [str "payment", str "price", str "fee", str "cost",
      str "invoice", str "currency"] then str "Payment Terms"
  else if includesAny t [str "confidential", str "non-disclosure", str "nda",
      str "privacy", str "secret", str "intellectual property", str "ip",
      str "copyright", str "patent", str "trademark"] then
    str "Confidentiality and IP"
  else if includesAny t [str "liability", str "liabilities",
      str "limitation of liability", str "liability cap", str "indemnify",
      str "indemnification"] then str "Limitation of Liability"
  else []

/-- `normalizeClauseType(clause.type || '', clause.content)`. -/
def clauseNormType (c : Clause) : Str :=
  normalizeClauseType (c.type.getD []) c.content

/-- `extractFullClause`: all same-normalized-type contents joined by a
blank line, or `null` when no clause normalizes to the type. -/
def extractFullClause (clauses : List Clause) (clauseType : Str) : Option Str :=
  let matching := clauses.filter fun c => clauseNormType c == clauseType
  if matching.length = 0 then none
  else some (List.intercalate (str "\n\n") (matching.map fun c => c.content))

/-- A `{clauseType, text}` entry of `getKeyClauses`. -/
structure KeyClause where
  clauseType : Str
  text : Str
deriving DecidableEq

/-- `getKeyClauses`: one entry per key clause type, in the fixed order. -/
def getKeyClauses (clauses : List Clause) : List KeyClause :=
  KEY_CLAUSE_TYPES.map fun clauseType =>
    ⟨clauseType, (extractFullClause clauses clauseType).getD []⟩

/-- The `{summary, risk, recommendation}` triple returned by the
generative-AI comparison collaborators. -/
structure AITriple where
  summary : Str
  risk : Str
  recommendation : Str
deriving DecidableEq

/-- One entry of the route's `aiComparisonResults`. -/
structure AIComparisonEntry where
  clauseType : Str
  summary : Str
  risk : Str
  recommendation : Str
  clientClause : Str
  vendorClause : Str
deriving DecidableEq

/-- The route's key-clause comparison: over the five key clause types,
call the AI collaborator when both sides have text, otherwise emit the
fixed not-found entry. -/
def keyClauseComparison (ai : Str → Str → Str → AITriple)
    (clientClauses vendorClauses : List Clause) : List AIComparisonEntry :=
  let ck := getKeyClauses clientClauses
  let vk := getKeyClauses vendorClauses
  ck.mapIdx fun idx c =>
    let v := vk.getD idx ⟨[], []⟩
    if c.text ≠ [] ∧ v.text ≠ [] then
      let r := ai c.clauseType c.text v.text
      ⟨c.clauseType, r.summary, r.risk, r.recommendation, c.text, v.text⟩
    else
      ⟨c.clauseType, str "Clause not found in one or both contracts.",
        str "UNKNOWN", str "No recommendation available.", c.text, v.text⟩

/-! ## The Mistral and OpenAI analysis wrappers -/

/-- The parsed JSON object shape read by both wrappers; each field may be
absent. -/
structure ParsedJson where
  summary : Option Str
  risk : Option Str
  recommendation : Option Str

/-- The fallback triple substituted on a caught failure. -/
def plainFallbackTriple : AITriple :=
  ⟨str "Unable to generate summary.", str "UNKNOWN",
   str "Unable to generate recommendation."⟩

/-- The triple the Mistral wrapper substitutes when the reply is not valid
JSON. -/
def invalidResponseTriple : AITriple :=
  ⟨str "Unable to generate summary due to invalid AI response.", str "UNKNOWN",
   str "Unable to generate recommendation due to invalid AI response."⟩

/-- ASCII letter (the `[a-z]` class under the `i` flag). -/
def isAsciiLetter (c : Char) : Bool := isAsciiLower c || isAsciiUpper c

/-- Drop a single leading newline (the `\n?` of the opening-fence regex). -/
def dropOneNl : Str → Str
  | '\n' :: rest => rest
  | l => l

/-- `replace(/```$/, '')`: strip one trailing code fence. -/
def stripTrailingFence (s : Str) : Str :=
  if startsWithStr s.reverse (str "```").reverse then (s.reverse.drop 3).reverse
  else s

/-- The Markdown code-fence removal both wrappers apply:
`replace(/^```[a-z]*\n?/i, '').replace(/```$/, '').trim()` when the
content starts with a fence. -/
def stripCodeFence (content : Str) : Str :=
  if startsWithStr content (str "```") then
    trimStr (stripTrailingFence (dropOneNl ((content.drop 3).dropWhile isAsciiLetter)))
  else content

/-- Control character of `[\u0000-\u001F\u007F-\u009F]`. -/
def isControlChar (c : Char) : Bool :=
  c.toNat ≤ 0x1F || (0x7F ≤ c.toNat && c.toNat ≤ 0x9F)

/-- The Mistral wrapper's sanitization: remove control characters other
than tab, LF and CR. -/
def sanitizeContent (s : Str) : Str :=
  s.filter fun c => !(isControlChar c) || c = '\t' || c = '\n' || c = '\r'

/-- `compareClausesWithMistral` of `ai-mistral.ts`.  `response = none`
models a failed request (`axios.post` throwing); `some none` a reply with
no content; `some (some raw)` a reply with content `raw`.  `parseJson`
is the external `JSON.parse`, `none` meaning it throws. -/
def compareClausesWithMistral (parseJson : Str → Option ParsedJson)
    (response : Option (Option Str)) : AITriple :=
  match response with
  | none => plainFallbackTriple
  | some none => plainFallbackTriple
  | some (some raw) =>
    if raw = [] then plainFallbackTriple
    else
      match parseJson (sanitizeContent (stripCodeFence (trimStr raw))) with
      | none => invalidResponseTriple
      | some r =>
        ⟨r.summary.getD [], r.risk.getD [], r.recommendation.getD []⟩

/-- `compareClausesWithOpenAI` of `ai-openai.ts` (same conventions as the
Mistral wrapper; its `JSON.parse` failure is caught by the outer catch). -/
def compareClausesWithOpenAI (parseJson : Str → Option ParsedJson)
    (response : Option (Option Str)) : AITriple :=
  match response with
  | none => plainFallbackTriple
  | some none => plainFallbackTriple
  | some (some raw) =>
    if raw = [] then plainFallbackTriple
    else
      match parseJson (stripCodeFence (trimStr raw)) with
      | none => plainFallbackTriple
      | some r =>
        ⟨r.summary.getD [], r.risk.getD [], r.recommendation.getD []⟩

/-! ## General lemmas about the embedded operations -/

theorem mem_dedupFirstAux {a : Str} :
    ∀ (l : List Str) (seen : List Str),
      a ∈ dedupFirstAux seen l ↔ (a ∈ l ∧ a ∉ seen) := by
  intro l
  induction l with
  | nil => intro seen; simp [dedupFirstAux]
  | cons x xs ih =>
    intro seen
    by_cases hx : x ∈ seen
    · rw [dedupFirstAux, if_pos hx, ih]
      simp only [List.mem_cons]
      constructor
      · rintro ⟨h1, h2⟩
        exact ⟨Or.inr h1, h2⟩
      · rintro ⟨h1 | h1, h2⟩
        · exact absurd (h1 ▸ hx) h2
        · exact ⟨h1, h2⟩
    · rw [dedupFirstAux, if_neg hx]
      simp only [List.mem_cons, ih]
      constructor
      · rintro (rfl | ⟨h1, h2⟩)
        · exact ⟨Or.inl rfl, hx⟩
        · exact ⟨Or.inr h1, fun hs => h2 (Or.inr hs)⟩
      · rintro ⟨h1 | h1, h2⟩
        · exact Or.inl h1
        · by_cases hax : a = x
          · exact Or.inl hax
          · exact Or.inr ⟨h1, fun hs => hs.elim (fun h => hax h) (fun h => h2 h)⟩

theorem mem_dedupFirst {a : Str} {l : List Str} : a ∈ dedupFirst l ↔ a ∈ l := by
  rw [dedupFirst, mem_dedupFirstAux]
  simp

theorem nodup_dedupFirstAux :
    ∀ (l : List Str) (seen : List Str), (dedupFirstAux seen l).Nodup := by
  intro l
  induction l with
  | nil => intro seen; simp [dedupFirstAux]
  | cons x xs ih =>
    intro seen
    by_cases hx : x ∈ seen
    · rw [dedupFirstAux, if_pos hx]; exact ih seen
    · rw [dedupFirstAux, if_neg hx]
      refine List.nodup_cons.mpr ⟨?_, ih (x :: seen)⟩
      intro hmem
      exact ((mem_dedupFirstAux xs (x :: seen)).mp hmem).2 (by simp)

theorem nodup_dedupFirst (l : List Str) : (dedupFirst l).Nodup :=
  nodup_dedupFirstAux l []

theorem dedupFirst_eq_nil : ∀ (l : List Str), dedupFirst l = [] ↔ l = [] := by
  intro l
  cases l with
  | nil => simp [dedupFirst, dedupFirstAux]
  | cons x xs => simp [dedupFirst, dedupFirstAux]

/-! ## C1: status thresholds of the resolver -/

/-- C1: for every matched pair with similarity score `s` the resolver
assigns Aligned iff `s ≥ 0.85`, Partial iff `0.65 ≤ s < 0.85` and
Non-Compliant iff `s < 0.65`; in particular `0.85` yields Aligned, `0.65`
yields Partial and `0.649999` yields Non-Compliant. -/
theorem statusResolver_thresholds (s : ℝ) (a : SummaryRec) :
    ((determineStatusAndRisk s a).1 = Status.Aligned ↔ 0.85 ≤ s) ∧
    ((determineStatusAndRisk s a).1 = Status.Partial ↔ 0.65 ≤ s ∧ s < 0.85) ∧
    ((determineStatusAndRisk s a).1 = Status.NonCompliant ↔ s < 0.65) ∧
    (determineStatusAndRisk 0.85 a).1 = Status.Aligned ∧
    (determineStatusAndRisk 0.65 a).1 = Status.Partial ∧
    (determineStatusAndRisk 0.649999 a).1 = Status.NonCompliant := by
  have key : ∀ (x : ℝ), (determineStatusAndRisk x a).1 =
      if 0.85 ≤ x then Status.Aligned
      else if 0.65 ≤ x then Status.Partial
      else Status.NonCompliant := fun x => rfl
  refine ⟨?_, ?_, ?_, ?_, ?_, ?_⟩
  · rw [key]; split_ifs with h1 h2 <;> simp [h1]
  · rw [key]; split_ifs with h1 h2
    · simp only [show (Status.Aligned = Status.Partial) ↔ False by simp,
        false_iff]
      rintro ⟨-, h⟩; linarith
    · simpa using ⟨h2, lt_of_not_ge h1⟩
    · simp only [show (Status.NonCompliant = Status.Partial) ↔ False by simp,
        false_iff]
      rintro ⟨h, -⟩; exact h2 h
  · rw [key]; split_ifs with h1 h2
    · simp only [show (Status.Aligned = Status.NonCompliant) ↔ False by simp,
        false_iff, not_lt]
      linarith
    · simp only [show (Status.Partial = Status.NonCompliant) ↔ False by simp,
        false_iff, not_lt]
      exact h2
    · simpa using lt_of_not_ge h2
  · rw [key]; norm_num
  · rw [key]; norm_num
  · rw [key]; norm_num

/-! ## C5: failure handling of the analysis wrappers -/

/-- C5 counterexample: on unparseable content the Mistral wrapper does
not return the plain fallback triple; its summary is the
invalid-AI-response message instead. -/
theorem mistral_invalid_json_not_plain_fallback :
    (compareClausesWithMistral (fun _ => none) (some (some (str "x")))).summary ≠
      str "Unable to generate summary." := by decide

/-- C5 amended: on a failed request or empty content both wrappers return
the plain fallback triple; on non-empty content that fails JSON parsing
the OpenAI wrapper returns the plain fallback triple, while the Mistral
wrapper returns the invalid-AI-response triple (risk "UNKNOWN" in every
case); neither wrapper raises. -/
theorem analysis_wrappers_fallbacks :
    (∀ p, compareClausesWithMistral p none = plainFallbackTriple ∧
      compareClausesWithMistral p (some none) = plainFallbackTriple ∧
      compareClausesWithOpenAI p none = plainFallbackTriple ∧
      compareClausesWithOpenAI p (some none) = plainFallbackTriple) ∧
    (∀ p, compareClausesWithMistral p (some (some [])) = plainFallbackTriple ∧
      compareClausesWithOpenAI p (some (some [])) = plainFallbackTriple) ∧
    (∀ p (raw : Str), raw ≠ [] →
      p (sanitizeContent (stripCodeFence (trimStr raw))) = none →
      compareClausesWithMistral p (some (some raw)) = invalidResponseTriple) ∧
    (∀ p (raw : Str), raw ≠ [] →
      p (stripCodeFence (trimStr raw)) = none →
      compareClausesWithOpenAI p (some (some raw)) = plainFallbackTriple) := by
  refine ⟨fun p => ⟨rfl, rfl, rfl, rfl⟩, fun p => ⟨rfl, rfl⟩, ?_, ?_⟩
  · intro p raw hraw hp
    simp only [compareClausesWithMistral]
    rw [if_neg hraw, hp]
  · intro p raw hraw hp
    simp only [compareClausesWithOpenAI]
    rw [if_neg hraw, hp]

/-- Witness for C5's amended statement at concrete inputs. -/
theorem analysis_wrappers_fallbacks_witness :
    compareClausesWithMistral (fun _ => none) (some (some (str "y"))) =
      invalidResponseTriple ∧
    compareClausesWithOpenAI (fun _ => none) (some (some (str "y"))) =
      plainFallbackTriple :=
  ⟨analysis_wrappers_fallbacks.2.2.1 _ _ (by decide) rfl,
   analysis_wrappers_fallbacks.2.2.2 _ _ (by decide) rfl⟩

/-! ## C10: the key-clause reporting of the upload route -/

theorem mapIdx_clauseType (f : ℕ → KeyClause → AIComparisonEntry)
    (hf : ∀ i c, (f i c).clauseType = c.clauseType) :
    ∀ (l : List KeyClause),
      (l.mapIdx f).map (fun e => e.clauseType) = l.map (fun c => c.clauseType) := by
  intro l
  induction l generalizing f with
  | nil => simp
  | cons c cs ih =>
    rw [List.mapIdx_cons, List.map_cons, List.map_cons, hf,
      ih (fun i => f (i + 1)) (fun i c => hf (i + 1) c)]

/-- The five entries of the route's key-clause comparison, elementwise. -/
theorem keyClauseComparison_getD (ai : Str → Str → Str → AITriple)
    (ccs vcs : List Clause) (i : ℕ) (hi : i < 5) :
    (keyClauseComparison ai ccs vcs).getD i ⟨[], [], [], [], [], []⟩ =
      (if (extractFullClause ccs (KEY_CLAUSE_TYPES.getD i [])).getD [] ≠ [] ∧
          (extractFullClause vcs (KEY_CLAUSE_TYPES.getD i [])).getD [] ≠ [] then
        ⟨KEY_CLAUSE_TYPES.getD i [],
         (ai (KEY_CLAUSE_TYPES.getD i []) ((extractFullClause ccs (KEY_CLAUSE_TYPES.getD i [])).getD [])
            ((extractFullClause vcs (KEY_CLAUSE_TYPES.getD i [])).getD [])).summary,
         (ai (KEY_CLAUSE_TYPES.getD i []) ((extractFullClause ccs (KEY_CLAUSE_TYPES.getD i [])).getD [])
            ((extractFullClause vcs (KEY_CLAUSE_TYPES.getD i [])).getD [])).risk,
         (ai (KEY_CLAUSE_TYPES.getD i []) ((extractFullClause ccs (KEY_CLAUSE_TYPES.getD i [])).getD [])
            ((extractFullClause vcs (KEY_CLAUSE_TYPES.getD i [])).getD [])).recommendation,
         (extractFullClause ccs (KEY_CLAUSE_TYPES.getD i [])).getD [],
         (extractFullClause vcs (KEY_CLAUSE_TYPES.getD i [])).getD []⟩
      else
        ⟨KEY_CLAUSE_TYPES.getD i [], str "Clause not found in one or both contracts.",
         str "UNKNOWN", str "No recommendation available.",
         (extractFullClause ccs (KEY_CLAUSE_TYPES.getD i [])).getD [],
         (extractFullClause vcs (KEY_CLAUSE_TYPES.getD i [])).getD []⟩) := by
  interval_cases i <;> rfl

/-- C10: the key-clause comparison always returns exactly five entries,
one per key clause type in the fixed order, and whenever either document
has no clause normalizing to a given type, that entry carries the fixed
not-found summary, risk "UNKNOWN" and the fixed no-recommendation text. -/
theorem keyClauseComparison_shape (ai : Str → Str → Str → AITriple)
    (ccs vcs : List Clause) :
    (keyClauseComparison ai ccs vcs).length = 5 ∧
    (keyClauseComparison ai ccs vcs).map (fun e => e.clauseType) =
      KEY_CLAUSE_TYPES ∧
    (∀ i, i < 5 →
      ((ccs.filter fun c => clauseNormType c == KEY_CLAUSE_TYPES.getD i []) = [] ∨
       (vcs.filter fun c => clauseNormType c == KEY_CLAUSE_TYPES.getD i []) = []) →
      ((keyClauseComparison ai ccs vcs).getD i ⟨[], [], [], [], [], []⟩).summary =
          str "Clause not found in one or both contracts." ∧
      ((keyClauseComparison ai ccs vcs).getD i ⟨[], [], [], [], [], []⟩).risk =
          str "UNKNOWN" ∧
      ((keyClauseComparison ai ccs vcs).getD i ⟨[], [], [], [], [], []⟩).recommendation =
          str "No recommendation available.") := by
  have hext : ∀ (cls : List Clause) (t : Str),
      (cls.filter fun c => clauseNormType c == t) = [] →
      (extractFullClause cls t).getD [] = [] := by
    intro cls t h
    unfold extractFullClause
    rw [h]
    rfl
  refine ⟨rfl, ?_, ?_⟩
  · have := mapIdx_clauseType
      (fun idx c =>
        let v := (getKeyClauses vcs).getD idx ⟨[], []⟩
        if c.text ≠ [] ∧ v.text ≠ [] then
          ⟨c.clauseType, (ai c.clauseType c.text v.text).summary,
           (ai c.clauseType c.text v.text).risk,
           (ai c.clauseType c.text v.text).recommendation, c.text, v.text⟩
        else
          ⟨c.clauseType, str "Clause not found in one or both contracts.",
           str "UNKNOWN", str "No recommendation available.", c.text, v.text⟩)
      (by intro i c; dsimp only; split <;> rfl) (getKeyClauses ccs)
    exact this.trans rfl
  · intro i hi hempty
    have hcond : ¬((extractFullClause ccs (KEY_CLAUSE_TYPES.getD i [])).getD [] ≠ [] ∧
        (extractFullClause vcs (KEY_CLAUSE_TYPES.getD i [])).getD [] ≠ []) := by
      rcases hempty with h | h
      · rintro ⟨h1, -⟩; exact h1 (hext ccs _ h)
      · rintro ⟨-, h2⟩; exact h2 (hext vcs _ h)
    rw [keyClauseComparison_getD ai ccs vcs i hi, if_neg hcond]
    exact ⟨rfl, rfl, rfl⟩

/-- C10 witness: on two empty clause lists every entry is the not-found
entry; shown for the first key type. -/
theorem keyClauseComparison_shape_witness :
    ((keyClauseComparison (fun _ _ _ => ⟨[], [], []⟩) [] []).getD 0
        ⟨[], [], [], [], [], []⟩).summary =
      str "Clause not found in one or both contracts." :=
  ((keyClauseComparison_shape (fun _ _ _ => ⟨[], [], []⟩) [] []).2.2 0
    (by decide) (Or.inl rfl)).1

/-! ## C8 and C9: segmentation invariants and run-level failures -/

theorem firstSectionMatch_nil : firstSectionMatch [] = none := by decide

theorem sectionsLoop_some_ne_nil :
    ∀ (ls : List Str) (c : Section'), sectionsLoop ls (some c) ≠ [] := by
  intro ls
  induction ls with
  | nil => intro c; simp [sectionsLoop]
  | cons line rest ih =>
    intro c
    cases h : firstSectionMatch line with
    | some m => simp [sectionsLoop, h]
    | none => simpa [sectionsLoop, h] using ih _

theorem sectionsLoop_content :
    ∀ (ls : List Str) (cur : Option Section'),
      (∀ c, cur = some c → c.content ≠ []) →
      ∀ s ∈ sectionsLoop ls cur, s.content ≠ [] := by
  intro ls
  induction ls with
  | nil =>
    intro cur hcur s hs
    cases cur with
    | none => simp [sectionsLoop] at hs
    | some c =>
      simp only [sectionsLoop, List.mem_singleton] at hs
      subst hs
      exact hcur _ rfl
  | cons line rest ih =>
    intro cur hcur s hs
    cases h : firstSectionMatch line with
    | some m =>
      have hline : line ≠ [] := by
        intro hl
        rw [hl, firstSectionMatch_nil] at h
        cases h
      simp only [sectionsLoop, h, List.mem_append] at hs
      rcases hs with h1 | h1
      · cases cur with
        | none => simp at h1
        | some c =>
          simp only [List.mem_singleton] at h1
          subst h1
          exact hcur _ rfl
      · refine ih _ ?_ s h1
        rintro c' rfl'
        cases rfl'
        exact hline
    | none =>
      cases cur with
      | some c =>
        simp only [sectionsLoop, h] at hs
        refine ih _ ?_ s hs
        rintro c' rfl'
        cases rfl'
        simp
      | none =>
        simp only [sectionsLoop, h] at hs
        exact ih _ (fun c hc => by cases hc) s hs

theorem sectionsLoop_none_eq_nil (ls : List Str) :
    sectionsLoop ls none = [] ↔ ∀ l ∈ ls, firstSectionMatch l = none := by
  induction ls with
  | nil => simp [sectionsLoop]
  | cons line rest ih =>
    cases h : firstSectionMatch line with
    | some m =>
      simp only [sectionsLoop, h, List.nil_append]
      constructor
      · intro hc
        exact absurd hc (sectionsLoop_some_ne_nil _ _)
      · intro hall
        have := hall line (by simp)
        rw [h] at this
        cases this
    | none => simp [sectionsLoop, h, ih]

theorem sectionsLoop_dropWhile :
    ∀ (ls : List Str), sectionsLoop ls none =
      sectionsLoop (ls.dropWhile fun l => (firstSectionMatch l).isNone) none := by
  intro ls
  induction ls with
  | nil => rfl
  | cons line rest ih =>
    cases h : firstSectionMatch line with
    | some m => simp [List.dropWhile_cons, h]
    | none => simp [sectionsLoop, List.dropWhile_cons, h, ih]

/-- C8: every emitted Section has non-empty content; a non-heading line in
front of the line stream is discarded (it changes nothing about the
emitted Sections), so all lines before the first heading line appear in no
Section; and an input whose lines contain no heading yields zero
Sections. -/
theorem splitIntoSections_invariants (text : Str) :
    (∀ s ∈ splitIntoSections text, s.content ≠ []) ∧
    (∀ (line : Str) (ls : List Str), firstSectionMatch line = none →
      sectionsLoop (line :: ls) none = sectionsLoop ls none) ∧
    (splitIntoSections text =
      sectionsLoop ((splitLines text).dropWhile fun l => (firstSectionMatch l).isNone) none) ∧
    ((∀ l ∈ splitLines text, firstSectionMatch l = none) →
      splitIntoSections text = []) := by
  refine ⟨?_, ?_, ?_, ?_⟩
  · exact sectionsLoop_content _ none (fun c hc => by cases hc)
  · intro line ls h
    simp [sectionsLoop, h]
  · exact sectionsLoop_dropWhile _
  · intro hall
    exact (sectionsLoop_none_eq_nil _).mpr hall

/-- C8 witness at concrete inputs: a parsed section of a two-line text has
non-empty content; a leading non-heading line is dropped; a heading-free
text yields no sections. -/
theorem splitIntoSections_invariants_witness :
    (⟨str "1.", str "Pay", str "1. Pay\nBody"⟩ : Section').content ≠ [] ∧
    sectionsLoop (str "intro" :: [str "1. Pay"]) none =
      sectionsLoop [str "1. Pay"] none ∧
    splitIntoSections (str "abc") = [] :=
  ⟨(splitIntoSections_invariants (str "1. Pay\nBody")).1 _ (by decide),
   (splitIntoSections_invariants []).2.1 _ _ (by decide),
   (splitIntoSections_invariants (str "abc")).2.2.2 (by decide)⟩

/-- C9: `parsePDF` fails with the extraction error exactly on
empty/whitespace-only text, fails with the no-sections error exactly when
the text is non-empty but no line is a detected heading, and otherwise
returns a non-empty clause list. -/
theorem parsePDF_failure_modes (text : Str) :
    (trimStr text = [] →
      parsePDF text = Except.error (str "No readable text found in the PDF. Please ensure the PDF contains selectable text.")) ∧
    (trimStr text ≠ [] → (∀ l ∈ splitLines text, firstSectionMatch l = none) →
      parsePDF text = Except.error (str "No sections found in the PDF. Please ensure the PDF contains numbered sections.")) ∧
    (trimStr text ≠ [] → ¬(∀ l ∈ splitLines text, firstSectionMatch l = none) →
      ∃ clauses, parsePDF text = Except.ok clauses ∧ clauses ≠ []) := by
  have hred : ∀ (t : Str), parsePDF t =
      if (trimStr t).length = 0 then
        Except.error (str "No readable text found in the PDF. Please ensure the PDF contains selectable text.")
      else if (List.map sectionToClause (splitIntoSections t)).length = 0 then
        Except.error (str "No sections found in the PDF. Please ensure the PDF contains numbered sections.")
      else Except.ok (List.map sectionToClause (splitIntoSections t)) := by
    intro t
    unfold parsePDF extractTextFromPDF
    by_cases h : (trimStr t).length = 0
    · simp only [if_pos h]
    · simp only [if_neg h]
  refine ⟨?_, ?_, ?_⟩
  · intro h
    rw [hred, if_pos (by rw [h]; rfl)]
  · intro h hall
    have hsec : splitIntoSections text = [] :=
      (sectionsLoop_none_eq_nil _).mpr hall
    rw [hred, if_neg (by simpa [List.length_eq_zero] using h), hsec]
    rfl
  · intro h hall
    have hsec : splitIntoSections text ≠ [] := by
      intro hc
      exact hall ((sectionsLoop_none_eq_nil _).mp hc)
    refine ⟨(splitIntoSections text).map sectionToClause, ?_, ?_⟩
    · rw [hred, if_neg (by simpa [List.length_eq_zero] using h),
        if_neg (by simpa [List.length_eq_zero] using hsec)]
    · simpa using hsec

/-- C9 witness: whitespace-only text gives the extraction error, a
heading-free text gives the no-sections error, and a headed text parses
into a non-empty clause list. -/
theorem parsePDF_failure_modes_witness :
    parsePDF (str " ") = Except.error (str "No readable text found in the PDF. Please ensure the PDF contains selectable text.") ∧
    parsePDF (str "abc") = Except.error (str "No sections found in the PDF. Please ensure the PDF contains numbered sections.") ∧
    ∃ clauses, parsePDF (str "1. Pay\nBody") = Except.ok clauses ∧ clauses ≠ [] :=
  ⟨(parsePDF_failure_modes (str " ")).1 (by decide),
   (parsePDF_failure_modes (str "abc")).2.1 (by decide) (by decide),
   (parsePDF_failure_modes (str "1. Pay\nBody")).2.2 (by decide) (by decide)⟩

/-! ## Structure of `compareClauses` (C2, C3, C7) -/

/-- `compareClauses` written out: one result per client clause, grouped by
clause type in key-insertion order. -/
theorem compareClauses_eq (analyze : Clause → Clause → Str → SummaryRec)
    (cs vs : List Clause) :
    compareClauses analyze cs vs =
      (dedupFirst (clauseTypesOrdered (cs.map typedOf) ++
          clauseTypesOrdered (vs.map typedOf))).flatMap
        (fun t =>
          (clausesOfType (cs.map typedOf) t).map fun c =>
            if (clausesOfType (vs.map typedOf) t).length = 0 then missingResult t c
            else
              matchedResult t c
                (findBestMatchWithEmbeddings c (clausesOfType (vs.map typedOf) t))
                (analyze c
                  (findBestMatchWithEmbeddings c (clausesOfType (vs.map typedOf) t)).1 t)
                (determineStatusAndRisk
                  (findBestMatchWithEmbeddings c (clausesOfType (vs.map typedOf) t)).2
                  (analyze c
                    (findBestMatchWithEmbeddings c (clausesOfType (vs.map typedOf) t)).1 t))) :=
  rfl

theorem sum_map_add (ts : List Str) (f g : Str → ℕ) :
    (ts.map fun t => f t + g t).sum = (ts.map f).sum + (ts.map g).sum := by
  induction ts with
  | nil => simp
  | cons t ts ih =>
    simp only [List.map_cons, List.sum_cons, ih]
    omega

theorem sum_indicator_zero (ts : List Str) (a : Str) (h : a ∉ ts) :
    (ts.map fun t => if a = t then 1 else 0).sum = 0 := by
  induction ts with
  | nil => simp
  | cons t ts ih =>
    simp only [List.map_cons, List.sum_cons]
    have ha : a ≠ t := fun hc => h (by simp [hc])
    rw [if_neg ha, ih (fun hc => h (by simp [hc]))]

theorem sum_indicator (ts : List Str) (a : Str) (hnd : ts.Nodup) (ha : a ∈ ts) :
    (ts.map fun t => if a = t then 1 else 0).sum = 1 := by
  induction ts with
  | nil => cases ha
  | cons t ts ih =>
    rcases List.mem_cons.mp ha with h | h
    · subst h
      simp only [List.map_cons, List.sum_cons, if_pos rfl,
        sum_indicator_zero ts a (List.nodup_cons.mp hnd).1]
      simp
    · have hne : a ≠ t := by
        rintro rfl
        exact (List.nodup_cons.mp hnd).1 h
      simp only [List.map_cons, List.sum_cons, if_neg hne]
      rw [ih (List.nodup_cons.mp hnd).2 h]

theorem sum_clausesOfType :
    ∀ (cs : List Clause) (ts : List Str), ts.Nodup →
      (∀ c ∈ cs, groupKeyOf c ∈ ts) →
      (ts.map fun t => (clausesOfType cs t).length).sum = cs.length := by
  intro cs
  induction cs with
  | nil => intro ts _ _; simp [clausesOfType]
  | cons c cs ih =>
    intro ts hnd hmem
    have hc : groupKeyOf c ∈ ts := hmem c (by simp)
    have hrest : ∀ c' ∈ cs, groupKeyOf c' ∈ ts := fun c' h => hmem c' (by simp [h])
    have hsplit : ∀ t, (clausesOfType (c :: cs) t).length =
        (if groupKeyOf c = t then 1 else 0) + (clausesOfType cs t).length := by
      intro t
      simp only [clausesOfType, List.filter_cons]
      by_cases h : groupKeyOf c = t
      · simp [h]
        omega
      · simp [h]
    calc (ts.map fun t => (clausesOfType (c :: cs) t).length).sum
        = (ts.map fun t =>
            (if groupKeyOf c = t then 1 else 0) + (clausesOfType cs t).length).sum := by
          congr 1
          exact List.map_congr_left (fun t _ => hsplit t)
      _ = (ts.map fun t => if groupKeyOf c = t then 1 else 0).sum +
            (ts.map fun t => (clausesOfType cs t).length).sum := sum_map_add ts _ _
      _ = 1 + cs.length := by rw [sum_indicator ts _ hnd hc, ih ts hnd hrest]
      _ = (c :: cs).length := by simp [Nat.add_comm]

/-- Every result of `compareClauses` arises from a type group and a client
clause, through the Missing branch or the best-match branch. -/
theorem compareClauses_mem (analyze : Clause → Clause → Str → SummaryRec)
    (cs vs : List Clause) (r : ComparisonResult)
    (hr : r ∈ compareClauses analyze cs vs) :
    ∃ t c, c ∈ clausesOfType (cs.map typedOf) t ∧
      ((clausesOfType (vs.map typedOf) t = [] ∧ r = missingResult t c) ∨
       (clausesOfType (vs.map typedOf) t ≠ [] ∧
        r = matchedResult t c
              (findBestMatchWithEmbeddings c (clausesOfType (vs.map typedOf) t))
              (analyze c
                (findBestMatchWithEmbeddings c (clausesOfType (vs.map typedOf) t)).1 t)
              (determineStatusAndRisk
                (findBestMatchWithEmbeddings c (clausesOfType (vs.map typedOf) t)).2
                (analyze c
                  (findBestMatchWithEmbeddings c
                    (clausesOfType (vs.map typedOf) t)).1 t)))) := by
  rw [compareClauses_eq] at hr
  simp only [List.mem_flatMap, List.mem_map] at hr
  obtain ⟨t, ht, c, hc, heq⟩ := hr
  refine ⟨t, c, hc, ?_⟩
  by_cases hv : (clausesOfType (vs.map typedOf) t).length = 0
  · left
    refine ⟨List.length_eq_zero.mp hv, ?_⟩
    rw [← heq, if_pos hv]
  · right
    refine ⟨fun hc' => hv (by rw [hc']; rfl), ?_⟩
    rw [← heq, if_neg hv]

theorem bestStep_snd_fst (d : Doc) (st : List Doc × (Clause × ℝ)) (v : Clause) :
    (bestStep d st v).2.1 = v ∨ (bestStep d st v).2.1 = st.2.1 := by
  unfold bestStep
  dsimp only
  split <;> split
  all_goals first
    | (left; rfl)
    | (right; rfl)

/-- The matcher's selected clause is one of the vendor clauses. -/
theorem findBest_mem (c : Clause) (vendors : List Clause) (hv : vendors ≠ []) :
    (findBestMatchWithEmbeddings c vendors).1 ∈ vendors := by
  unfold findBestMatchWithEmbeddings
  suffices h : ∀ (l : List Clause) (st : List Doc × (Clause × ℝ)),
      st.2.1 ∈ vendors → (∀ v ∈ l, v ∈ vendors) →
      (l.foldl (bestStep (tokenize c.content)) st).2.1 ∈ vendors by
    refine h vendors _ ?_ (fun v hv' => hv')
    cases vendors with
    | nil => cases hv rfl
    | cons v vs => simp [List.headI]
  intro l
  induction l with
  | nil => intro st h1 _; exact h1
  | cons v l ih =>
    intro st h1 h2
    rw [List.foldl_cons]
    refine ih _ ?_ (fun v' hv' => h2 v' (by simp [hv']))
    rcases bestStep_snd_fst (tokenize c.content) st v with h | h
    · rw [h]; exact h2 v (by simp)
    · rw [h]; exact h1

theorem determineStatusAndRisk_fst_ne_missing (s : ℝ) (a : SummaryRec) :
    (determineStatusAndRisk s a).1 ≠ Status.Missing := by
  have key : (determineStatusAndRisk s a).1 =
      if 0.85 ≤ s then Status.Aligned
      else if 0.65 ≤ s then Status.Partial
      else Status.NonCompliant := rfl
  rw [key]
  split_ifs <;> simp

theorem determineStatusAndRisk_risk (s : ℝ) (a : SummaryRec) :
    (determineStatusAndRisk s a).2 =
      if (determineStatusAndRisk s a).1 = Status.NonCompliant then Risk.high
      else if (determineStatusAndRisk s a).1 = Status.Partial then
        (if includesAny (toLowerStr a.summary)
            [str "critical", str "significant", str "major", str "severe"] then
          Risk.high
        else if includesAny (toLowerStr a.summary)
            [str "risk", str "concern", str "issue"] then Risk.medium
        else Risk.low)
      else Risk.low := rfl

/-- A trivial per-pair analysis collaborator used for concrete runs. -/
def analyzeConst : Clause → Clause → Str → SummaryRec := fun _ _ _ => ⟨[], []⟩

/-- Client clauses whose types interleave (A, B, A). -/
def interleavedClients : List Clause :=
  [⟨str "1", str "T1", str "x", [], some (str "A"), none⟩,
   ⟨str "2", str "T2", str "y", [], some (str "B"), none⟩,
   ⟨str "3", str "T3", str "z", [], some (str "A"), none⟩]

/-- C2 counterexample: on client clauses with interleaved types the result
list is not in client-document order (it comes out grouped by type:
T1, T3, T2). -/
theorem compareClauses_not_client_order :
    (compareClauses analyzeConst interleavedClients []).map (fun r => r.clauseTitle) ≠
      interleavedClients.map (fun c => c.sectionTitle) := by decide

/-- C2 amended: `compareClauses` returns exactly one result per client
clause, but ordered by clause-type group - types in first-occurrence
order (client side first), client-document order preserved only within
each group. -/
theorem compareClauses_count_and_grouped_order
    (analyze : Clause → Clause → Str → SummaryRec) (cs vs : List Clause) :
    (compareClauses analyze cs vs).length = cs.length ∧
    (compareClauses analyze cs vs).map (fun r => r.clauseTitle) =
      (dedupFirst (clauseTypesOrdered (cs.map typedOf) ++
          clauseTypesOrdered (vs.map typedOf))).flatMap
        (fun t => (clausesOfType (cs.map typedOf) t).map fun c => c.sectionTitle) := by
  have hmem : ∀ c' ∈ cs.map typedOf, groupKeyOf c' ∈
      dedupFirst (clauseTypesOrdered (cs.map typedOf) ++
        clauseTypesOrdered (vs.map typedOf)) := by
    intro c' hc'
    refine mem_dedupFirst.mpr (List.mem_append_left _ ?_)
    exact mem_dedupFirst.mpr (List.mem_map_of_mem groupKeyOf hc')
  constructor
  · rw [compareClauses_eq, List.length_flatMap]
    have hmap : List.map
        (List.length ∘ fun t => (clausesOfType (cs.map typedOf) t).map fun c =>
          if (clausesOfType (vs.map typedOf) t).length = 0 then missingResult t c
          else
            matchedResult t c
              (findBestMatchWithEmbeddings c (clausesOfType (vs.map typedOf) t))
              (analyze c
                (findBestMatchWithEmbeddings c (clausesOfType (vs.map typedOf) t)).1 t)
              (determineStatusAndRisk
                (findBestMatchWithEmbeddings c (clausesOfType (vs.map typedOf) t)).2
                (analyze c
                  (findBestMatchWithEmbeddings c (clausesOfType (vs.map typedOf) t)).1 t)))
        (dedupFirst (clauseTypesOrdered (cs.map typedOf) ++
          clauseTypesOrdered (vs.map typedOf))) =
        List.map (fun t => (clausesOfType (cs.map typedOf) t).length)
          (dedupFirst (clauseTypesOrdered (cs.map typedOf) ++
            clauseTypesOrdered (vs.map typedOf))) := by
      refine List.map_congr_left ?_
      intro t _
      simp [Function.comp]
    rw [hmap, sum_clausesOfType (cs.map typedOf) _ (nodup_dedupFirst _) hmem,
      List.length_map]
  · rw [compareClauses_eq, List.map_flatMap]
    refine congrArg _ (funext fun t => ?_)
    rw [List.map_map]
    refine List.map_congr_left ?_
    intro c _
    by_cases h : (clausesOfType (vs.map typedOf) t).length = 0
    · simp only [Function.comp, if_pos h]
      rfl
    · simp only [Function.comp, if_neg h]
      rfl

/-- C3: a result's status is Missing exactly when the vendor side has no
clause of that result's (effective) clause type; a Missing result carries
the empty vendor text and no similarity score; a non-Missing result is
paired with an actual vendor clause of the same type and carries a score. -/
theorem compareClauses_missing_iff (analyze : Clause → Clause → Str → SummaryRec)
    (cs vs : List Clause) (r : ComparisonResult)
    (hr : r ∈ compareClauses analyze cs vs) :
    (r.status = Status.Missing ↔ clausesOfType (vs.map typedOf) r.clauseType = []) ∧
    (r.status = Status.Missing → r.vendorClause = [] ∧ r.similarityScore = none) ∧
    (r.status ≠ Status.Missing →
      ∃ v ∈ clausesOfType (vs.map typedOf) r.clauseType,
        r.vendorClause = v.content ∧ ∃ x, r.similarityScore = some x) := by
  obtain ⟨t, c, hc, hcase⟩ := compareClauses_mem analyze cs vs r hr
  rcases hcase with ⟨hv, rfl⟩ | ⟨hv, rfl⟩
  · refine ⟨?_, fun _ => ⟨rfl, rfl⟩, fun hne => absurd rfl hne⟩
    constructor
    · intro _; exact hv
    · intro _; rfl
  · have hst : (matchedResult t c
        (findBestMatchWithEmbeddings c (clausesOfType (vs.map typedOf) t))
        (analyze c (findBestMatchWithEmbeddings c (clausesOfType (vs.map typedOf) t)).1 t)
        (determineStatusAndRisk
          (findBestMatchWithEmbeddings c (clausesOfType (vs.map typedOf) t)).2
          (analyze c
            (findBestMatchWithEmbeddings c
              (clausesOfType (vs.map typedOf) t)).1 t))).status ≠ Status.Missing :=
      determineStatusAndRisk_fst_ne_missing
        (findBestMatchWithEmbeddings c (clausesOfType (vs.map typedOf) t)).2
        (analyze c (findBestMatchWithEmbeddings c (clausesOfType (vs.map typedOf) t)).1 t)
    refine ⟨⟨fun h => absurd h hst, fun h => absurd h hv⟩,
      fun h => absurd h hst, fun _ => ?_⟩
    exact ⟨(findBestMatchWithEmbeddings c (clausesOfType (vs.map typedOf) t)).1,
      findBest_mem c _ hv, rfl,
      (findBestMatchWithEmbeddings c (clausesOfType (vs.map typedOf) t)).2, rfl⟩

/-- C3 witness: a single client clause against an empty vendor list gives
the Missing result with empty vendor text and no score. -/
theorem compareClauses_missing_iff_witness :
    (missingResult (str "A")
        (typedOf ⟨str "1", str "T", str "x", [], some (str "A"), none⟩)).vendorClause = [] ∧
    (missingResult (str "A")
        (typedOf ⟨str "1", str "T", str "x", [], some (str "A"), none⟩)).similarityScore = none :=
  (compareClauses_missing_iff analyzeConst
      [⟨str "1", str "T", str "x", [], some (str "A"), none⟩] []
      (missingResult (str "A")
        (typedOf ⟨str "1", str "T", str "x", [], some (str "A"), none⟩))
      (by
        show missingResult (str "A")
            (typedOf ⟨str "1", str "T", str "x", [], some (str "A"), none⟩) ∈
          [missingResult (str "A")
            (typedOf ⟨str "1", str "T", str "x", [], some (str "A"), none⟩)]
        exact List.mem_singleton.mpr rfl)).2.1 rfl

/-- C7: Non-Compliant results get risk high; Aligned results are never
escalated (risk low by this path); Partial results default to low,
escalated to high on "critical"/"significant"/"major"/"severe" in the
analysis summary, else to medium on "risk"/"concern"/"issue"
(case-insensitive); Missing results carry risk high. -/
theorem risk_mapping :
    (∀ (s : ℝ) (a : SummaryRec),
      ((determineStatusAndRisk s a).1 = Status.NonCompliant →
        (determineStatusAndRisk s a).2 = Risk.high) ∧
      ((determineStatusAndRisk s a).1 = Status.Aligned →
        (determineStatusAndRisk s a).2 = Risk.low) ∧
      ((determineStatusAndRisk s a).1 = Status.Partial →
        (determineStatusAndRisk s a).2 =
          (if includesAny (toLowerStr a.summary)
              [str "critical", str "significant", str "major", str "severe"] then
            Risk.high
          else if includesAny (toLowerStr a.summary)
              [str "risk", str "concern", str "issue"] then Risk.medium
          else Risk.low))) ∧
    (∀ (analyze : Clause → Clause → Str → SummaryRec) (cs vs : List Clause) r,
      r ∈ compareClauses analyze cs vs →
      r.status = Status.Missing → r.risk = Risk.high) := by
  constructor
  · intro s a
    refine ⟨?_, ?_, ?_⟩ <;> intro h <;> rw [determineStatusAndRisk_risk, h] <;> simp
  · intro analyze cs vs r hr hst
    obtain ⟨t, c, hc, hcase⟩ := compareClauses_mem analyze cs vs r hr
    rcases hcase with ⟨hv, rfl⟩ | ⟨hv, rfl⟩
    · rfl
    · exact absurd hst (determineStatusAndRisk_fst_ne_missing
        (findBestMatchWithEmbeddings c (clausesOfType (vs.map typedOf) t)).2
        (analyze c (findBestMatchWithEmbeddings c (clausesOfType (vs.map typedOf) t)).1 t))

/-- C7 witness: a similarity of 0.5 resolves to Non-Compliant with risk
high, and a concrete Missing result carries risk high. -/
theorem risk_mapping_witness :
    (determineStatusAndRisk (0.5 : ℝ) ⟨[], []⟩).2 = Risk.high ∧
    (missingResult (str "A")
        (typedOf ⟨str "1", str "T", str "x", [], some (str "A"), none⟩)).risk = Risk.high :=
  ⟨(risk_mapping.1 0.5 ⟨[], []⟩).1
      (by
        rw [show (determineStatusAndRisk (0.5 : ℝ) ⟨[], []⟩).1 =
            if (0.85 : ℝ) ≤ 0.5 then Status.Aligned
            else if (0.65 : ℝ) ≤ 0.5 then Status.Partial
            else Status.NonCompliant from rfl]
        norm_num),
   risk_mapping.2 analyzeConst
      [⟨str "1", str "T", str "x", [], some (str "A"), none⟩] []
      (missingResult (str "A")
        (typedOf ⟨str "1", str "T", str "x", [], some (str "A"), none⟩))
      (by
        show missingResult (str "A")
            (typedOf ⟨str "1", str "T", str "x", [], some (str "A"), none⟩) ∈
          [missingResult (str "A")
            (typedOf ⟨str "1", str "T", str "x", [], some (str "A"), none⟩)]
        exact List.mem_singleton.mpr rfl) rfl⟩

/-! ## The TF-IDF scorer (C6) and the matcher's corpus bug (C4) -/

theorem tfidfAt_zero (docs : List Doc) (term : Str) (i : Nat)
    (h : (docs.getD i []).count term = 0) : tfidfAt docs term i = 0 := by
  unfold tfidfAt
  rw [h]
  simp

theorem partStep_skip (docs : List Doc) (acc : ℝ × ℝ) (term : Str)
    (h : tfidfAt docs term 0 = 0 ∨ tfidfAt docs term 1 = 0) :
    partStep docs acc term = acc := by
  unfold partStep
  rcases h with h | h
  · rw [if_neg]
    rintro ⟨h1, -⟩
    rw [h] at h1
    exact lt_irrefl 0 h1
  · rw [if_neg]
    rintro ⟨-, h2⟩
    rw [h] at h2
    exact lt_irrefl 0 h2

theorem similarityParts_zero (docs : List Doc) :
    ∀ (terms : List Str),
      (∀ t ∈ terms, tfidfAt docs t 0 = 0 ∨ tfidfAt docs t 1 = 0) →
      similarityParts docs terms = (0, 0) := by
  have haux : ∀ (l : List Str),
      (∀ t ∈ l, tfidfAt docs t 0 = 0 ∨ tfidfAt docs t 1 = 0) →
      ∀ acc : ℝ × ℝ, l.foldl (partStep docs) acc = acc := by
    intro l
    induction l with
    | nil => intro _ acc; rfl
    | cons t ts ih =>
      intro hl acc
      rw [List.foldl_cons, partStep_skip docs acc t (hl t (by simp))]
      exact ih (fun t' ht' => hl t' (by simp [ht'])) acc
  intro terms h
  exact haux terms h (0, 0)

theorem partStep_snd_le (docs : List Doc) (acc : ℝ × ℝ) (term : Str) :
    acc.2 ≤ (partStep docs acc term).2 := by
  by_cases h : 0 < tfidfAt docs term 0 ∧ 0 < tfidfAt docs term 1
  · rw [partStep, if_pos h]
    dsimp only
    have hmax : (0:ℝ) ≤ max (tfidfAt docs term 0) (tfidfAt docs term 1) :=
      le_trans (le_of_lt h.1) (le_max_left _ _)
    linarith
  · rw [partStep, if_neg h]

theorem foldl_partStep_snd_le (docs : List Doc) :
    ∀ (terms : List Str) (acc : ℝ × ℝ),
      acc.2 ≤ (terms.foldl (partStep docs) acc).2 := by
  intro terms
  induction terms with
  | nil => intro acc; exact le_refl _
  | cons t ts ih =>
    intro acc
    rw [List.foldl_cons]
    exact le_trans (partStep_snd_le docs acc t) (ih _)

theorem foldl_partStep_eq (docs : List Doc) :
    ∀ (terms : List Str),
      (∀ t ∈ terms, tfidfAt docs t 0 = tfidfAt docs t 1) →
      ∀ acc : ℝ × ℝ, acc.1 = acc.2 →
      (terms.foldl (partStep docs) acc).1 = (terms.foldl (partStep docs) acc).2 := by
  intro terms
  induction terms with
  | nil => intro _ acc hacc; exact hacc
  | cons t ts ih =>
    intro h acc hacc
    rw [List.foldl_cons]
    refine ih (fun t' ht' => h t' (by simp [ht'])) _ ?_
    have ht := h t (by simp)
    by_cases hc : 0 < tfidfAt docs t 0 ∧ 0 < tfidfAt docs t 1
    · rw [partStep, if_pos hc]
      dsimp only
      rw [ht, min_self, max_self, hacc]
    · rw [partStep, if_neg hc]
      exact hacc

theorem partStep_snd_lt (docs : List Doc) (acc : ℝ × ℝ) (term : Str)
    (h0 : tfidfAt docs term 0 = tfidfAt docs term 1)
    (hpos : 0 < tfidfAt docs term 0) :
    acc.2 < (partStep docs acc term).2 := by
  rw [partStep, if_pos ⟨hpos, h0 ▸ hpos⟩]
  dsimp only
  have hmax : 0 < max (tfidfAt docs term 0) (tfidfAt docs term 1) :=
    lt_of_lt_of_le hpos (le_max_left _ _)
  linarith

theorem foldl_partStep_pos_of_mem (docs : List Doc) :
    ∀ (terms : List Str) (u : Str), u ∈ terms →
      tfidfAt docs u 0 = tfidfAt docs u 1 → 0 < tfidfAt docs u 0 →
      ∀ acc : ℝ × ℝ, acc.2 < (terms.foldl (partStep docs) acc).2 := by
  intro terms
  induction terms with
  | nil => intro u hu; cases hu
  | cons t ts ih =>
    intro u hu h0 hpos acc
    rw [List.foldl_cons]
    rcases List.mem_cons.mp hu with rfl | hu'
    · exact lt_of_lt_of_le (partStep_snd_lt docs acc u h0 hpos)
        (foldl_partStep_snd_le docs ts _)
    · exact lt_of_le_of_lt (partStep_snd_le docs acc t) (ih u hu' h0 hpos _)

theorem idf_pair_self (term : Str) (d : Doc) (hmem : term ∈ d) :
    idf term [d, d] = 1 + Real.log (2 / 3) := by
  unfold idf docsWithTerm
  have hlen : (([d, d].filter fun d' => term ∈ d')).length = 2 := by
    simp [List.filter_cons, hmem]
  rw [hlen]
  norm_num

theorem one_add_log_two_thirds_pos : (0:ℝ) < 1 + Real.log (2 / 3) := by
  have h32 : (3:ℝ)/2 < Real.exp 1 := by
    have := Real.add_one_le_exp (1:ℝ)
    linarith
  have hlog : Real.log (3/2) < 1 := by
    rw [Real.log_lt_iff_lt_exp (by norm_num : (0:ℝ) < 3/2)]
    simpa using h32
  have hinv : Real.log (2/3) = - Real.log (3/2) := by
    rw [show (2:ℝ)/3 = ((3:ℝ)/2)⁻¹ by norm_num, Real.log_inv]
  linarith

/-- The two-document scorer at identical texts: every term surviving the
stopword filter has equal weight on both sides, so the accumulated
numerator equals the denominator and the score is exactly 1 whenever at
least one token survives. -/
theorem pairScore_self (t : Str) (h : buildDocument t ≠ []) :
    calculateSemanticSimilarity t t = 1 := by
  unfold calculateSemanticSimilarity
  obtain ⟨u, hu⟩ : ∃ u, u ∈ buildDocument t := by
    cases hb : buildDocument t with
    | nil => exact absurd hb h
    | cons u us => exact ⟨u, by simp [hb]⟩
  have huT : u ∈ tokenize t := (List.mem_filter.mp hu).1
  have huU : u ∈ termUnion (tokenize t) (tokenize t) := by
    rw [termUnion]
    exact mem_dedupFirst.mpr (List.mem_append_left _ (List.mem_dedup.mpr huT))
  have heq : ∀ v ∈ termUnion (tokenize t) (tokenize t),
      tfidfAt [buildDocument t, buildDocument t] v 0 =
        tfidfAt [buildDocument t, buildDocument t] v 1 := fun v _ => rfl
  have hposu : 0 < tfidfAt [buildDocument t, buildDocument t] u 0 := by
    unfold tfidfAt
    refine mul_pos ?_ ?_
    · exact_mod_cast List.count_pos_iff.mpr hu
    · rw [idf_pair_self u (buildDocument t) hu]
      exact one_add_log_two_thirds_pos
  have heq2 : (similarityParts [buildDocument t, buildDocument t]
        (termUnion (tokenize t) (tokenize t))).1 =
      (similarityParts [buildDocument t, buildDocument t]
        (termUnion (tokenize t) (tokenize t))).2 :=
    foldl_partStep_eq [buildDocument t, buildDocument t] _ heq (0, 0) rfl
  have hpos2 : 0 < (similarityParts [buildDocument t, buildDocument t]
      (termUnion (tokenize t) (tokenize t))).2 :=
    foldl_partStep_pos_of_mem [buildDocument t, buildDocument t] _ u huU rfl
      hposu (0, 0)
  rw [if_pos hpos2, heq2, div_self (ne_of_gt hpos2)]

/-- C6 counterexample: "the" is an English stopword, so on the non-empty
one-token text "the" both corpus documents are empty, no term qualifies,
the denominator stays 0, and self-similarity is 0 rather than the claimed
maximum 1. -/
theorem similarity_self_stopword_zero :
    tokenize (str "the") ≠ [] ∧
    calculateSemanticSimilarity (str "the") (str "the") = 0 ∧
    calculateSemanticSimilarity (str "the") (str "the") ≠ 1 := by
  have hz : calculateSemanticSimilarity (str "the") (str "the") = 0 := by
    unfold calculateSemanticSimilarity
    dsimp only
    rw [similarityParts_zero _ _ (by
      intro term ht
      rw [show termUnion (tokenize (str "the")) (tokenize (str "the")) =
          [str "the"] from by decide] at ht
      fin_cases ht
      exact Or.inl (tfidfAt_zero _ _ _ (by decide)))]
    dsimp only
    rw [if_neg (lt_irrefl (0:ℝ))]
  exact ⟨by decide, hz, by rw [hz]; norm_num⟩

/-- C6 amended: on any text with at least one word token that is not one
of the library's English stopwords, the standalone two-document scorer
applied to two copies of that text returns exactly 1. -/
theorem similarity_self_eq_one (t : Str) (h : buildDocument t ≠ []) :
    calculateSemanticSimilarity t t = 1 := pairScore_self t h

/-- C6 witness at the one-token text "pay" (not a stopword). -/
theorem similarity_self_eq_one_witness :
    buildDocument (str "pay") ≠ [] ∧
    calculateSemanticSimilarity (str "pay") (str "pay") = 1 :=
  ⟨by decide, similarity_self_eq_one (str "pay") (by decide)⟩

/-- When every iterated term scores zero in document 0 or document 1 of
the grown corpus, a matcher iteration only grows the corpus and keeps the
current best (of similarity 0). -/
theorem bestStep_noop (d : Doc) (st : List Doc × (Clause × ℝ)) (v : Clause)
    (h0 : st.2.2 = 0)
    (h : ∀ term ∈ termUnion d (tokenize v.content),
        tfidfAt (st.1 ++ [buildDocument v.content]) term 0 = 0 ∨
        tfidfAt (st.1 ++ [buildDocument v.content]) term 1 = 0) :
    bestStep d st v = (st.1 ++ [buildDocument v.content], st.2) := by
  unfold bestStep
  dsimp only
  rw [similarityParts_zero _ _ h]
  dsimp only
  rw [if_neg (lt_irrefl (0:ℝ)), h0, if_neg (lt_irrefl (0:ℝ))]

/-- The client clause of the C4 run: content "pay now". -/
def c4client : Clause :=
  ⟨str "c", str "C", str "pay now", [], some (str "Payment Terms"), none⟩

/-- First vendor clause: content "other" (no token shared with the
client). -/
def c4vendorA : Clause :=
  ⟨str "v1", str "V1", str "other", [], some (str "Payment Terms"), none⟩

/-- Second vendor clause: content identical to the client's. -/
def c4vendorB : Clause :=
  ⟨str "v2", str "V2", str "pay now", [], some (str "Payment Terms"), none⟩

/-- C4 evidence: the matcher scores the second vendor clause against the
tf-idf column of the *first* vendor document of its ever-growing
stopword-filtered corpus, so the identical second vendor clause receives
score 0 and the returned best match is the unrelated first vendor clause
with similarity 0, while the standalone two-document scorer gives the
same pair the score 1. -/
theorem findBest_ignores_later_vendors :
    findBestMatchWithEmbeddings c4client [c4vendorA, c4vendorB] =
      (c4vendorA, (0:ℝ)) ∧
    calculateSemanticSimilarity c4client.content c4vendorB.content = 1 := by
  constructor
  · unfold findBestMatchWithEmbeddings
    rw [List.foldl_cons, List.foldl_cons, List.foldl_nil]
    rw [bestStep_noop (tokenize c4client.content)
      ([buildDocument c4client.content], ([c4vendorA, c4vendorB].headI, 0))
      c4vendorA rfl (by
      intro term ht
      rw [show termUnion (tokenize c4client.content) (tokenize c4vendorA.content) =
          [str "pay", str "now", str "other"] from by decide] at ht
      fin_cases ht
      · exact Or.inr (tfidfAt_zero _ _ _ (by decide))
      · exact Or.inr (tfidfAt_zero _ _ _ (by decide))
      · exact Or.inl (tfidfAt_zero _ _ _ (by decide)))]
    rw [bestStep_noop (tokenize c4client.content)
      ([buildDocument c4client.content] ++ [buildDocument c4vendorA.content],
        ([c4vendorA, c4vendorB].headI, 0))
      c4vendorB rfl (by
      intro term ht
      rw [show termUnion (tokenize c4client.content) (tokenize c4vendorB.content) =
          [str "pay", str "now"] from by decide] at ht
      fin_cases ht
      · exact Or.inr (tfidfAt_zero _ _ _ (by decide))
      · exact Or.inr (tfidfAt_zero _ _ _ (by decide)))]
    rfl
  · show calculateSemanticSimilarity (str "pay now") (str "pay now") = 1
    exact pairScore_self (str "pay now") (by decide)
